import Mathlib

/-!
A shallow embedding of the wercker pipeline runner (`executePipeline`,
`SoftExit` and the keen metrics event handler) together with proofs about
its failure policy, cleanup discipline and event behaviour.

The Go code under verification is deterministic once the outcome of every
external call (code fetch, environment setup, each step execution, push,
artifact collection and upload, container restart, session creation,
environment exports) is fixed.  A `Scenario` records those outcomes, and
`executePipeline` below replays the exact control flow of the source on a
scenario, producing the ordered `trace` of observable calls, the final
`PipelineResult` and the function's outcome (returned error or panic).

Deferred calls (`buildFinisher.Finish(false)`, `box.Clean`, `box.Stop`)
run on every exit path, panics included, in last-in first-out order; the
model appends them at each termination point accordingly.
-/

namespace Wercker

/-- The fields of GlobalOptions that executePipeline reads. -/
structure GlobalOptions where
  debug : Bool
  shouldCommit : Bool
  shouldPush : Bool
  shouldArtifacts : Bool
  shouldRemove : Bool
deriving DecidableEq

/-- A pipeline step as seen by the runner loop: its Name and DisplayName. -/
structure UserStep where
  name : String
  displayName : String
deriving DecidableEq

/-- PipelineResult: overall success plus the failed step's name and message. -/
structure PipelineResult where
  success : Bool
  failedStepName : String
  failedStepMessage : String
deriving DecidableEq

/-- The StepResult fields used by the synthetic store step. -/
structure StepResult where
  success : Bool
  message : String
  packageURL : String
  exitCode : Nat
deriving DecidableEq

/-- Observable calls made during one run of executePipeline, in program order. -/
inductive Action where
  | softExitLog (msg : String)
  | softExitPanic (msg : String)
  | setupEnvironment
  | buildStepsAdded
  | runStep (name : String)
  | commit
  | storeStepStart
  | push
  | collectArtifact
  | uploadArtifact
  | storeStepFinish (success : Bool)
  | finish (success : Bool)
  | restart
  | getSession
  | runAfterStep (name : String)
  | boxStop
  | boxClean
deriving DecidableEq

/-- Fixed outcomes of the external calls for one run.  `none` means the call
succeeds, `some msg` that it fails with message `msg`.  Each user step and
after step is paired with the outcome of its `RunStep` call (`some msg`
meaning failure with result message `msg`). -/
structure Scenario where
  ensureCodeErr : Option String
  boxCreated : Bool
  setupEnvErr : Option String
  steps : List (UserStep × Option String)
  pushErr : Option String
  collectErr : Option String
  uploadErr : Option String
  artifactURL : String
  afterSteps : List (UserStep × Option String)
  restartErr : Option String
  getSessionErr : Option String
  pipelineExportErr : Option String
  prExportErr : Option String
deriving DecidableEq

/-- How executePipeline terminates: a normal return with an optional error,
or a propagating panic. -/
inductive Outcome where
  | ret (err : Option String)
  | panicked (msg : String)
deriving DecidableEq

/-- The full observable result of one run. -/
structure RunResult where
  trace : List Action
  pr : Option PipelineResult
  outcome : Outcome
deriving DecidableEq

/-- The SoftExit helper: it closes over the parsed options. -/
structure SoftExit where
  options : GlobalOptions
deriving DecidableEq

/-- Result of a SoftExit.Exit call: a panic, or a logged message together
with the returned error string. -/
inductive SoftExitResult where
  | panicked (msg : String)
  | returned (logged : String) (err : String)
deriving DecidableEq

/-- SoftExit.Exit: panic in debug mode, otherwise log the arguments at
error level and return the normalized error. -/
def SoftExit.Exit (s : SoftExit) (v : String) : SoftExitResult :=
  if s.options.debug then SoftExitResult.panicked v
  else SoftExitResult.returned v "Exiting."

/-- The PipelineResult created before the step loop. -/
def initialPipelineResult : PipelineResult :=
  { success := true, failedStepName := "", failedStepMessage := "" }

/-- The StepResult the store closure starts from. -/
def initialStoreStepResult : StepResult :=
  { success := false, message := "", packageURL := "", exitCode := 1 }

/-- The deferred calls replayed at every exit point, in execution order:
`box.Stop`, then `box.Clean` when ShouldRemove, then the deferred
`buildFinisher.Finish(false)` (registered first, hence run last). -/
def deferredActions (boxDefers : Bool) (opts : GlobalOptions) : List Action :=
  (if boxDefers then
      Action.boxStop :: (if opts.shouldRemove then [Action.boxClean] else [])
    else []) ++ [Action.finish false]

/-- The user step loop: run each step in order; on the first failure record
the failed step's display name and message on the PipelineResult, mark it
unsuccessful, and break.  After each successful step, commit the box when
ShouldCommit is set.  Returns the actions of the loop and the resulting
PipelineResult. -/
def runUserSteps (opts : GlobalOptions) :
    List (UserStep × Option String) → PipelineResult →
      List Action × PipelineResult
  | [], pr => ([], pr)
  | (st, outcome) :: rest, pr =>
    match outcome with
    | some msg =>
        ([Action.runStep st.name],
         { success := false, failedStepName := st.displayName,
           failedStepMessage := msg })
    | none =>
        let commitActs := if opts.shouldCommit then [Action.commit] else []
        let r := runUserSteps opts rest pr
        (Action.runStep st.name :: (commitActs ++ r.1), r.2)

/-- The artifact part of the store closure: only when the PipelineResult is
still successful and ShouldArtifacts is set, pre-set the failure message,
collect the artifact and upload it; on success record the package URL on
the StepResult. -/
def storeArtifactPhase (opts : GlobalOptions) (sc : Scenario)
    (pr : PipelineResult) (sr : StepResult) :
    List Action × PipelineResult × StepResult × Option String :=
  if pr.success && opts.shouldArtifacts then
    let prA := { pr with failedStepMessage := "Unable to store pipeline output" }
    match sc.collectErr with
    | some e => ([Action.collectArtifact], prA, sr, some e)
    | none =>
      match sc.uploadErr with
      | some e =>
          ([Action.collectArtifact, Action.uploadArtifact], prA, sr, some e)
      | none =>
          ([Action.collectArtifact, Action.uploadArtifact], prA,
           { sr with packageURL := sc.artifactURL }, none)
  else ([], pr, sr, none)

/-- The body of the store closure: set FailedStepName to "store"; when
ShouldPush is set, pre-set the push failure message and push (returning
the error on failure); then the artifact part; if everything went ok,
reset the failure fields, set success back to true and mark the store
StepResult successful with exit code 0. -/
def storeClosureBody (opts : GlobalOptions) (sc : Scenario)
    (pr : PipelineResult) :
    List Action × PipelineResult × StepResult × Option String :=
  let sr := initialStoreStepResult
  let pr1 := { pr with failedStepName := "store" }
  if opts.shouldPush then
    let pr2 := { pr1 with failedStepMessage := "Unable to push to registry" }
    match sc.pushErr with
    | some e => ([Action.push], pr2, sr, some e)
    | none =>
      match storeArtifactPhase opts sc pr2 sr with
      | (acts, pr3, sr3, some e) => (Action.push :: acts, pr3, sr3, some e)
      | (acts, _, sr3, none) =>
          (Action.push :: acts,
           { success := true, failedStepName := "", failedStepMessage := "" },
           { sr3 with success := true, exitCode := 0 }, none)
  else
    match storeArtifactPhase opts sc pr1 sr with
    | (acts, pr3, sr3, some e) => (acts, pr3, sr3, some e)
    | (acts, _, sr3, none) =>
        (acts,
         { success := true, failedStepName := "", failedStepMessage := "" },
         { sr3 with success := true, exitCode := 0 }, none)

/-- The store phase: start the synthetic store step, run the closure, and
finish the store step with the closure's StepResult (the deferred
finisher); if the closure returned an error, downgrade the PipelineResult
to unsuccessful. -/
def storePhase (opts : GlobalOptions) (sc : Scenario) (pr : PipelineResult) :
    List Action × PipelineResult :=
  match storeClosureBody opts sc pr with
  | (acts, pr1, sr1, err) =>
    (Action.storeStepStart :: acts ++ [Action.storeStepFinish sr1.success],
     match err with
     | some _ => { pr1 with success := false }
     | none => pr1)

/-- The after step loop: run each after step in order; the first failure
breaks the loop.  The PipelineResult is not in scope of the loop body. -/
def runAfterSteps : List (UserStep × Option String) → List Action
  | [] => []
  | (st, outcome) :: rest =>
    match outcome with
    | some _ => [Action.runAfterStep st.name]
    | none => Action.runAfterStep st.name :: runAfterSteps rest

/-- Everything after `buildFinisher.Finish(pr.Success)`: return nil when
there are no after steps; otherwise restart the box (panic on failure),
get a new session (panic on failure), export the pipeline environment and
the PipelineResult environment (returning the error on failure), run the
after steps, and finally return an error carrying the failed step name
exactly when the PipelineResult is unsuccessful. -/
def afterPhase (sc : Scenario) (pr : PipelineResult) : List Action × Outcome :=
  if sc.afterSteps.isEmpty then ([], Outcome.ret none)
  else
    match sc.restartErr with
    | some e => ([Action.restart], Outcome.panicked e)
    | none =>
      match sc.getSessionErr with
      | some e => ([Action.restart, Action.getSession], Outcome.panicked e)
      | none =>
        match sc.pipelineExportErr with
        | some e => ([Action.restart, Action.getSession], Outcome.ret (some e))
        | none =>
          match sc.prExportErr with
          | some e =>
              ([Action.restart, Action.getSession], Outcome.ret (some e))
          | none =>
              ([Action.restart, Action.getSession] ++ runAfterSteps sc.afterSteps,
               if pr.success then Outcome.ret none
               else Outcome.ret (some ("Step failed: " ++ pr.failedStepName)))

/-- The run from the SetupEnvironment call on.  `pre` holds the actions
already performed (the EnsureCode failure handling).  The box cleanup is
registered before the error check, so a SetupEnvironment failure still
releases the box; afterwards the steps are announced, the user step loop
runs, the box is committed once more when ShouldCommit is set, the store
phase runs when ShouldPush is set or the result is still successful and
ShouldArtifacts is set, the build finisher is called with the result's
success, and the after phase decides the outcome. -/
def executeFromSetup (opts : GlobalOptions) (sc : Scenario)
    (pre : List Action) : RunResult :=
  match sc.setupEnvErr with
  | some e =>
    if opts.debug then
      { trace := pre ++ [Action.setupEnvironment, Action.softExitPanic e]
          ++ deferredActions sc.boxCreated opts,
        pr := none,
        outcome := Outcome.panicked e }
    else
      { trace := pre ++ [Action.setupEnvironment, Action.softExitLog e]
          ++ deferredActions sc.boxCreated opts,
        pr := none,
        outcome := Outcome.ret (some "Exiting.") }
  | none =>
    let s := runUserSteps opts sc.steps initialPipelineResult
    let commitActs := if opts.shouldCommit then [Action.commit] else []
    let st :=
      if opts.shouldPush || (s.2.success && opts.shouldArtifacts) then
        storePhase opts sc s.2
      else ([], s.2)
    let af := afterPhase sc st.2
    { trace := pre ++ [Action.setupEnvironment, Action.buildStepsAdded]
        ++ s.1 ++ commitActs ++ st.1 ++ [Action.finish st.2.success]
        ++ af.1 ++ deferredActions sc.boxCreated opts,
      pr := some st.2,
      outcome := af.2 }

/-- One run of executePipeline on a scenario.  An EnsureCode failure calls
SoftExit: in debug mode this panics (only the deferred finisher runs); in
non-debug mode SoftExit logs and returns an error which the caller
discards, so execution continues with SetupEnvironment. -/
def executePipeline (opts : GlobalOptions) (sc : Scenario) : RunResult :=
  match sc.ensureCodeErr, opts.debug with
  | some e, true =>
    { trace := [Action.softExitPanic e, Action.finish false],
      pr := none,
      outcome := Outcome.panicked e }
  | some e, false => executeFromSetup opts sc [Action.softExitLog e]
  | none, _ => executeFromSetup opts sc []

/-- The PipelineOptions fields the metrics handler reads. -/
structure PipelineOptions where
  keenProjectWriteKey : String
  keenProjectID : String
  buildID : String
  deployID : String
deriving DecidableEq

/-- The metrics event handler state: the keen client credentials and the
per-step start timestamps keyed by SafeID (a Go map, modelled as a
function into Option). -/
structure MetricsEventHandler where
  keenWriteKey : String
  keenProjectID : String
  startStep : String → Option Int

/-- NewMetricsHandler: reject an empty write key or project id, otherwise
build a handler around a keen client with a fresh empty start-step map. -/
def NewMetricsHandler (opts : PipelineOptions) :
    Except String MetricsEventHandler :=
  if opts.keenProjectWriteKey = "" then
    Except.error "No KeenProjectWriteKey specified"
  else if opts.keenProjectID = "" then
    Except.error "No KeenProjectID specified"
  else
    Except.ok
      { keenWriteKey := opts.keenProjectWriteKey,
        keenProjectID := opts.keenProjectID,
        startStep := fun _ => none }

/-- BuildStepStarted: record `now` as the start timestamp for the step's
SafeID (the payload it sends carries no duration). -/
def MetricsEventHandler.BuildStepStarted (h : MetricsEventHandler)
    (safeID : String) (now : Int) : MetricsEventHandler :=
  { h with startStep := fun k => if k = safeID then some now else h.startStep k }

/-- BuildStepFinished: the duration defaults to zero; when a start
timestamp for the step's SafeID is present, the duration is the elapsed
time and the timestamp is deleted.  The payload is sent in either case;
the returned integer is the duration it carries. -/
def MetricsEventHandler.BuildStepFinished (h : MetricsEventHandler)
    (safeID : String) (now : Int) : MetricsEventHandler × Int :=
  match h.startStep safeID with
  | some b =>
      ({ h with startStep := fun k => if k = safeID then none else h.startStep k },
       now - b)
  | none => (h, 0)

/-- Either a logged panic (the logger's Panic level raises in every mode)
or a value. -/
inductive PanicOr (α : Type) where
  | panicked (msg : String)
  | value (a : α)
deriving DecidableEq

/-- getPipelineName: "build" when a BuildID is present, else "deploy" when
a DeployID is present, else a logged panic. -/
def getPipelineName (options : PipelineOptions) : PanicOr String :=
  if options.buildID ≠ "" then PanicOr.value "build"
  else if options.deployID ≠ "" then PanicOr.value "deploy"
  else PanicOr.panicked "Metrics is only able to send metrics for builds or deploys"

/-- getCollection: the keen collection, with the same missing-id panic. -/
def getCollection (options : PipelineOptions) : PanicOr String :=
  if options.buildID ≠ "" then PanicOr.value "build-events"
  else if options.deployID ≠ "" then PanicOr.value "deploy-events"
  else PanicOr.panicked "Metrics is only able to send metrics for builds or deploys"

/-- sendPayload's control flow on the options: it resolves the keen
collection, then the pipeline name (each raises a logged panic when the
options carry neither a BuildID nor a DeployID); on success the event is
added to the resolved collection.  The remaining payload fields are pure
data plumbing with no branching. -/
def sendPayload (options : PipelineOptions) : PanicOr (String × String) :=
  match getCollection options with
  | PanicOr.panicked m => PanicOr.panicked m
  | PanicOr.value c =>
    match getPipelineName options with
    | PanicOr.panicked m => PanicOr.panicked m
    | PanicOr.value n => PanicOr.value (c, n)

/-- A user step named A. -/
def stepA : UserStep := { name := "A", displayName := "A-display" }

/-- An after step named Z. -/
def stepZ : UserStep := { name := "Z", displayName := "Z-display" }

/-- A scenario in which every external call succeeds and the pipeline has
no steps and no after steps. -/
def allOkScenario : Scenario :=
  { ensureCodeErr := none, boxCreated := true, setupEnvErr := none,
    steps := [], pushErr := none, collectErr := none, uploadErr := none,
    artifactURL := "", afterSteps := [], restartErr := none,
    getSessionErr := none, pipelineExportErr := none, prExportErr := none }

/-- Options with every flag off. -/
def defaultOptions : GlobalOptions :=
  { debug := false, shouldCommit := false, shouldPush := false,
    shouldArtifacts := false, shouldRemove := false }

/-- Names of the user steps run, in order, as recorded in a trace. -/
def userStepNames (tr : List Action) : List String :=
  tr.filterMap fun a =>
    match a with
    | Action.runStep n => some n
    | _ => none

/-- Names of the after steps run, in order, as recorded in a trace. -/
def afterStepNames (tr : List Action) : List String :=
  tr.filterMap fun a =>
    match a with
    | Action.runAfterStep n => some n
    | _ => none

/-- The run reaches the SetupEnvironment call: either EnsureCode succeeded,
or the run is not in debug mode (the SoftExit return value is discarded and
execution continues). -/
def reachesSetup (opts : GlobalOptions) (sc : Scenario) : Prop :=
  sc.ensureCodeErr = none ∨ opts.debug = false

lemma mem_runUserSteps_acts {opts : GlobalOptions} :
    ∀ {l : List (UserStep × Option String)} {pr : PipelineResult} {a : Action},
      a ∈ (runUserSteps opts l pr).1 →
      (∃ n, a = Action.runStep n) ∨ a = Action.commit := by
  intro l
  induction l with
  | nil => intro pr a ha; simp [runUserSteps] at ha
  | cons q rest ih =>
    intro pr a ha
    obtain ⟨st, outcome⟩ := q
    cases outcome with
    | some msg =>
      simp [runUserSteps] at ha
      subst ha
      exact Or.inl ⟨st.name, rfl⟩
    | none =>
      cases hc : opts.shouldCommit <;>
        simp [runUserSteps, hc] at ha <;>
        rcases ha with h | h
      · exact Or.inl ⟨st.name, h⟩
      · exact ih h
      · exact Or.inl ⟨st.name, h⟩
      · rcases h with h | h
        · exact Or.inr h
        · exact ih h

lemma mem_storeArtifactPhase_acts {opts : GlobalOptions} {sc : Scenario}
    {pr : PipelineResult} {sr : StepResult} {a : Action}
    (ha : a ∈ (storeArtifactPhase opts sc pr sr).1) :
    a = Action.collectArtifact ∨ a = Action.uploadArtifact := by
  by_cases h : (pr.success && opts.shouldArtifacts) = true
  · cases hce : sc.collectErr with
    | some e => simp [storeArtifactPhase, h, hce] at ha; exact Or.inl ha
    | none =>
      cases hue : sc.uploadErr with
      | some e =>
        simp [storeArtifactPhase, h, hce, hue] at ha
        rcases ha with h1 | h1
        · exact Or.inl h1
        · exact Or.inr h1
      | none =>
        simp [storeArtifactPhase, h, hce, hue] at ha
        rcases ha with h1 | h1
        · exact Or.inl h1
        · exact Or.inr h1
  · simp [storeArtifactPhase, h] at ha

lemma mem_storeClosureBody_acts {opts : GlobalOptions} {sc : Scenario}
    {pr : PipelineResult} {a : Action}
    (ha : a ∈ (storeClosureBody opts sc pr).1) :
    a = Action.push ∨ a = Action.collectArtifact ∨ a = Action.uploadArtifact := by
  by_cases hp : opts.shouldPush = true
  · cases hpe : sc.pushErr with
    | some e =>
      simp [storeClosureBody, hp, hpe] at ha
      exact Or.inl ha
    | none =>
      rcases harts : storeArtifactPhase opts sc
          { pr with failedStepName := "store",
                    failedStepMessage := "Unable to push to registry" }
          initialStoreStepResult with ⟨acts, pr3, sr3, err⟩
      cases err with
      | some e =>
        simp [storeClosureBody, hp, hpe, harts] at ha
        rcases ha with h | h
        · exact Or.inl h
        · rcases mem_storeArtifactPhase_acts (by rw [harts]; exact h) with h1 | h1
          · exact Or.inr (Or.inl h1)
          · exact Or.inr (Or.inr h1)
      | none =>
        simp [storeClosureBody, hp, hpe, harts] at ha
        rcases ha with h | h
        · exact Or.inl h
        · rcases mem_storeArtifactPhase_acts (by rw [harts]; exact h) with h1 | h1
          · exact Or.inr (Or.inl h1)
          · exact Or.inr (Or.inr h1)
  · rcases harts : storeArtifactPhase opts sc
        { pr with failedStepName := "store" }
        initialStoreStepResult with ⟨acts, pr3, sr3, err⟩
    cases err with
    | some e =>
      simp [storeClosureBody, hp, harts] at ha
      rcases mem_storeArtifactPhase_acts (by rw [harts]; exact ha) with h1 | h1
      · exact Or.inr (Or.inl h1)
      · exact Or.inr (Or.inr h1)
    | none =>
      simp [storeClosureBody, hp, harts] at ha
      rcases mem_storeArtifactPhase_acts (by rw [harts]; exact ha) with h1 | h1
      · exact Or.inr (Or.inl h1)
      · exact Or.inr (Or.inr h1)

lemma mem_storePhase_acts {opts : GlobalOptions} {sc : Scenario}
    {pr : PipelineResult} {a : Action}
    (ha : a ∈ (storePhase opts sc pr).1) :
    a = Action.storeStepStart ∨ a = Action.push ∨ a = Action.collectArtifact ∨
      a = Action.uploadArtifact ∨ ∃ b, a = Action.storeStepFinish b := by
  rcases hbody : storeClosureBody opts sc pr with ⟨acts, pr1, sr1, err⟩
  simp [storePhase, hbody] at ha
  rcases ha with h | h | h
  · exact Or.inl h
  · rcases mem_storeClosureBody_acts (by rw [hbody]; exact h) with h1 | h1 | h1
    · exact Or.inr (Or.inl h1)
    · exact Or.inr (Or.inr (Or.inl h1))
    · exact Or.inr (Or.inr (Or.inr (Or.inl h1)))
  · exact Or.inr (Or.inr (Or.inr (Or.inr ⟨sr1.success, h⟩)))

lemma mem_runAfterSteps_acts :
    ∀ {l : List (UserStep × Option String)} {a : Action},
      a ∈ runAfterSteps l → ∃ n, a = Action.runAfterStep n := by
  intro l
  induction l with
  | nil => intro a ha; simp [runAfterSteps] at ha
  | cons q rest ih =>
    intro a ha
    obtain ⟨st, outcome⟩ := q
    cases outcome with
    | some msg =>
      simp [runAfterSteps] at ha
      exact ⟨st.name, ha⟩
    | none =>
      simp [runAfterSteps] at ha
      rcases ha with h | h
      · exact ⟨st.name, h⟩
      · exact ih h

lemma mem_afterPhase_acts {sc : Scenario} {pr : PipelineResult} {a : Action}
    (ha : a ∈ (afterPhase sc pr).1) :
    a = Action.restart ∨ a = Action.getSession ∨
      ∃ n, a = Action.runAfterStep n := by
  by_cases hemp : sc.afterSteps.isEmpty = true
  · simp [afterPhase, hemp] at ha
  · cases hre : sc.restartErr with
    | some e =>
      simp [afterPhase, hemp, hre] at ha
      exact Or.inl ha
    | none =>
      cases hse : sc.getSessionErr with
      | some e =>
        simp [afterPhase, hemp, hre, hse] at ha
        rcases ha with h | h
        · exact Or.inl h
        · exact Or.inr (Or.inl h)
      | none =>
        cases hpe : sc.pipelineExportErr with
        | some e =>
          simp [afterPhase, hemp, hre, hse, hpe] at ha
          rcases ha with h | h
          · exact Or.inl h
          · exact Or.inr (Or.inl h)
        | none =>
          cases hxe : sc.prExportErr with
          | some e =>
            simp [afterPhase, hemp, hre, hse, hpe, hxe] at ha
            rcases ha with h | h
            · exact Or.inl h
            · exact Or.inr (Or.inl h)
          | none =>
            simp [afterPhase, hemp, hre, hse, hpe, hxe] at ha
            rcases ha with h | h | h
            · exact Or.inl h
            · exact Or.inr (Or.inl h)
            · exact Or.inr (Or.inr (mem_runAfterSteps_acts h))

lemma mem_deferredActions_acts {b : Bool} {opts : GlobalOptions} {a : Action}
    (ha : a ∈ deferredActions b opts) :
    a = Action.boxStop ∨ a = Action.boxClean ∨ a = Action.finish false := by
  cases b <;> cases hr : opts.shouldRemove <;>
    simp [deferredActions, hr] at ha <;> tauto

lemma userStepNames_append (l1 l2 : List Action) :
    userStepNames (l1 ++ l2) = userStepNames l1 ++ userStepNames l2 :=
  List.filterMap_append l1 l2 _

lemma afterStepNames_append (l1 l2 : List Action) :
    afterStepNames (l1 ++ l2) = afterStepNames l1 ++ afterStepNames l2 :=
  List.filterMap_append l1 l2 _

lemma userStepNames_eq_nil {tr : List Action}
    (h : ∀ n, Action.runStep n ∉ tr) : userStepNames tr = [] := by
  rw [userStepNames, List.filterMap_eq_nil_iff]
  intro a ha
  cases a <;> try rfl
  exact absurd ha (h _)

lemma afterStepNames_eq_nil {tr : List Action}
    (h : ∀ n, Action.runAfterStep n ∉ tr) : afterStepNames tr = [] := by
  rw [afterStepNames, List.filterMap_eq_nil_iff]
  intro a ha
  cases a <;> try rfl
  exact absurd ha (h _)

lemma runUserSteps_break {opts : GlobalOptions} :
    ∀ {l : List (UserStep × Option String)} {pr : PipelineResult},
      l.any (fun q => q.2.isSome) = true →
      ∃ pre st msg rest,
        l = pre ++ (st, some msg) :: rest ∧
        (∀ q ∈ pre, q.2 = none) ∧
        userStepNames (runUserSteps opts l pr).1 =
          pre.map (fun q => q.1.name) ++ [st.name] ∧
        (runUserSteps opts l pr).2 =
          { success := false, failedStepName := st.displayName,
            failedStepMessage := msg } := by
  intro l
  induction l with
  | nil => intro pr h; simp at h
  | cons q rest ih =>
    intro pr h
    obtain ⟨st, outcome⟩ := q
    cases outcome with
    | some msg =>
      refine ⟨[], st, msg, rest, rfl, by simp, ?_, ?_⟩
      · simp [runUserSteps, userStepNames]
      · simp [runUserSteps]
    | none =>
      have hrest : rest.any (fun q => q.2.isSome) = true := by
        simpa using h
      obtain ⟨pre, st1, msg, rest1, hEq, hpre, hnames, hpr⟩ :=
        @ih pr hrest
      refine ⟨(st, none) :: pre, st1, msg, rest1, by rw [hEq]; rfl, ?_, ?_, ?_⟩
      · intro q hq
        rcases List.mem_cons.mp hq with h1 | h1
        · rw [h1]
        · exact hpre q h1
      · cases hc : opts.shouldCommit <;>
          simp [runUserSteps, hc, userStepNames, List.filterMap_append] at hnames ⊢ <;>
          simpa [userStepNames] using hnames
      · simp only [runUserSteps]
        exact hpr

lemma runAfterSteps_break :
    ∀ {l : List (UserStep × Option String)},
      l.any (fun q => q.2.isSome) = true →
      ∃ pre st msg rest,
        l = pre ++ (st, some msg) :: rest ∧
        (∀ q ∈ pre, q.2 = none) ∧
        runAfterSteps l =
          pre.map (fun q => Action.runAfterStep q.1.name) ++
            [Action.runAfterStep st.name] := by
  intro l
  induction l with
  | nil => intro h; simp at h
  | cons q rest ih =>
    intro h
    obtain ⟨st, outcome⟩ := q
    cases outcome with
    | some msg =>
      exact ⟨[], st, msg, rest, rfl, by simp, by simp [runAfterSteps]⟩
    | none =>
      have hrest : rest.any (fun q => q.2.isSome) = true := by
        simpa using h
      obtain ⟨pre, st1, msg, rest1, hEq, hpre, hacts⟩ := ih hrest
      refine ⟨(st, none) :: pre, st1, msg, rest1, by rw [hEq]; rfl, ?_, ?_⟩
      · intro q hq
        rcases List.mem_cons.mp hq with h1 | h1
        · rw [h1]
        · exact hpre q h1
      · simp [runAfterSteps, hacts]

lemma userStepNames_storePhase (opts : GlobalOptions) (sc : Scenario)
    (pr : PipelineResult) : userStepNames (storePhase opts sc pr).1 = [] := by
  refine userStepNames_eq_nil fun n hn => ?_
  rcases mem_storePhase_acts hn with h | h | h | h | ⟨b, h⟩ <;> cases h

lemma afterStepNames_storePhase (opts : GlobalOptions) (sc : Scenario)
    (pr : PipelineResult) : afterStepNames (storePhase opts sc pr).1 = [] := by
  refine afterStepNames_eq_nil fun n hn => ?_
  rcases mem_storePhase_acts hn with h | h | h | h | ⟨b, h⟩ <;> cases h

lemma userStepNames_afterPhase (sc : Scenario) (pr : PipelineResult) :
    userStepNames (afterPhase sc pr).1 = [] := by
  refine userStepNames_eq_nil fun n hn => ?_
  rcases mem_afterPhase_acts hn with h | h | ⟨m, h⟩ <;> cases h

lemma afterStepNames_runUserSteps (opts : GlobalOptions)
    (l : List (UserStep × Option String)) (pr : PipelineResult) :
    afterStepNames (runUserSteps opts l pr).1 = [] := by
  refine afterStepNames_eq_nil fun n hn => ?_
  rcases mem_runUserSteps_acts hn with ⟨m, h⟩ | h <;> cases h

lemma userStepNames_deferredActions (b : Bool) (opts : GlobalOptions) :
    userStepNames (deferredActions b opts) = [] := by
  refine userStepNames_eq_nil fun n hn => ?_
  rcases mem_deferredActions_acts hn with h | h | h <;> cases h

lemma afterStepNames_deferredActions (b : Bool) (opts : GlobalOptions) :
    afterStepNames (deferredActions b opts) = [] := by
  refine afterStepNames_eq_nil fun n hn => ?_
  rcases mem_deferredActions_acts hn with h | h | h <;> cases h

lemma storeStepStart_mem_storePhase (opts : GlobalOptions) (sc : Scenario)
    (pr : PipelineResult) : Action.storeStepStart ∈ (storePhase opts sc pr).1 := by
  rcases hbody : storeClosureBody opts sc pr with ⟨acts, pr1, sr1, err⟩
  simp [storePhase, hbody]

lemma storeStepStart_notMem_runUserSteps (opts : GlobalOptions)
    (l : List (UserStep × Option String)) (pr : PipelineResult) :
    Action.storeStepStart ∉ (runUserSteps opts l pr).1 := by
  intro hn
  rcases mem_runUserSteps_acts hn with ⟨m, h⟩ | h <;> cases h

lemma storeStepStart_notMem_afterPhase (sc : Scenario) (pr : PipelineResult) :
    Action.storeStepStart ∉ (afterPhase sc pr).1 := by
  intro hn
  rcases mem_afterPhase_acts hn with h | h | ⟨m, h⟩ <;> cases h

lemma storeStepStart_notMem_deferredActions (b : Bool) (opts : GlobalOptions) :
    Action.storeStepStart ∉ deferredActions b opts := by
  intro hn
  rcases mem_deferredActions_acts hn with h | h | h <;> cases h

lemma boxStop_notMem_runUserSteps (opts : GlobalOptions)
    (l : List (UserStep × Option String)) (pr : PipelineResult) :
    Action.boxStop ∉ (runUserSteps opts l pr).1 := by
  intro hn
  rcases mem_runUserSteps_acts hn with ⟨m, h⟩ | h <;> cases h

lemma boxClean_notMem_runUserSteps (opts : GlobalOptions)
    (l : List (UserStep × Option String)) (pr : PipelineResult) :
    Action.boxClean ∉ (runUserSteps opts l pr).1 := by
  intro hn
  rcases mem_runUserSteps_acts hn with ⟨m, h⟩ | h <;> cases h

lemma boxStop_notMem_storePhase (opts : GlobalOptions) (sc : Scenario)
    (pr : PipelineResult) : Action.boxStop ∉ (storePhase opts sc pr).1 := by
  intro hn
  rcases mem_storePhase_acts hn with h | h | h | h | ⟨b, h⟩ <;> cases h

lemma boxClean_notMem_storePhase (opts : GlobalOptions) (sc : Scenario)
    (pr : PipelineResult) : Action.boxClean ∉ (storePhase opts sc pr).1 := by
  intro hn
  rcases mem_storePhase_acts hn with h | h | h | h | ⟨b, h⟩ <;> cases h

lemma boxStop_notMem_afterPhase (sc : Scenario) (pr : PipelineResult) :
    Action.boxStop ∉ (afterPhase sc pr).1 := by
  intro hn
  rcases mem_afterPhase_acts hn with h | h | ⟨m, h⟩ <;> cases h

lemma boxClean_notMem_afterPhase (sc : Scenario) (pr : PipelineResult) :
    Action.boxClean ∉ (afterPhase sc pr).1 := by
  intro hn
  rcases mem_afterPhase_acts hn with h | h | ⟨m, h⟩ <;> cases h

lemma executePipeline_reach {opts : GlobalOptions} {sc : Scenario}
    (h : reachesSetup opts sc) :
    ∃ pre, executePipeline opts sc = executeFromSetup opts sc pre ∧
      userStepNames pre = [] ∧ afterStepNames pre = [] ∧
      Action.storeStepStart ∉ pre ∧ Action.boxStop ∉ pre ∧
      Action.boxClean ∉ pre := by
  cases hec : sc.ensureCodeErr with
  | none =>
    refine ⟨[], ?_, rfl, rfl, by simp, by simp, by simp⟩
    simp [executePipeline, hec]
  | some e =>
    have hdbg : opts.debug = false := by
      rcases h with h1 | h1
      · rw [hec] at h1; cases h1
      · exact h1
    refine ⟨[Action.softExitLog e], ?_, rfl, rfl, by simp, by simp, by simp⟩
    simp [executePipeline, hec, hdbg]

lemma userStepNames_announce :
    userStepNames [Action.setupEnvironment, Action.buildStepsAdded] = [] := rfl

lemma userStepNames_finishAct (b : Bool) :
    userStepNames [Action.finish b] = [] := rfl

lemma userStepNames_commitActs (b : Bool) :
    userStepNames (if b then [Action.commit] else []) = [] := by
  cases b <;> rfl

lemma afterStepNames_announce :
    afterStepNames [Action.setupEnvironment, Action.buildStepsAdded] = [] := rfl

lemma afterStepNames_finishAct (b : Bool) :
    afterStepNames [Action.finish b] = [] := rfl

lemma afterStepNames_commitActs (b : Bool) :
    afterStepNames (if b then [Action.commit] else []) = [] := by
  cases b <;> rfl

lemma storeStepStart_notMem_commitActs (b : Bool) :
    Action.storeStepStart ∉ (if b then [Action.commit] else []) := by
  cases b <;> simp

lemma boxStop_notMem_commitActs (b : Bool) :
    Action.boxStop ∉ (if b then [Action.commit] else []) := by
  cases b <;> simp

lemma boxClean_notMem_commitActs (b : Bool) :
    Action.boxClean ∉ (if b then [Action.commit] else []) := by
  cases b <;> simp

/-- C4: in every run that reaches the step loop and in which some user
step fails, the loop breaks at the first failure (the user steps run are
exactly those up to and including the first failing one) and the store
phase is entered if and only if ShouldPush is set. -/
theorem C4_user_step_failure_breaks_loop_and_store_iff_push
    (opts : GlobalOptions) (sc : Scenario)
    (hreach : reachesSetup opts sc)
    (hsetup : sc.setupEnvErr = none)
    (hfail : sc.steps.any (fun q => q.2.isSome) = true) :
    (∃ pre st msg rest,
        sc.steps = pre ++ (st, some msg) :: rest ∧
        (∀ q ∈ pre, q.2 = none) ∧
        userStepNames (executePipeline opts sc).trace =
          pre.map (fun q => q.1.name) ++ [st.name]) ∧
    (Action.storeStepStart ∈ (executePipeline opts sc).trace ↔
      opts.shouldPush = true) := by
  obtain ⟨pre0, hEq, hU0, hA0, hS0, hBs0, hBc0⟩ := executePipeline_reach hreach
  obtain ⟨pre, st, msg, rest, hsteps, hpre, hnames, hpr⟩ :=
    @runUserSteps_break opts sc.steps initialPipelineResult hfail
  rw [hEq]
  simp only [executeFromSetup, hsetup]
  rw [hpr]
  simp only [Bool.false_and, Bool.or_false]
  cases hp : opts.shouldPush with
  | true =>
    rw [if_pos rfl]
    refine ⟨⟨pre, st, msg, rest, hsteps, hpre, ?_⟩, ?_⟩
    · simp only [userStepNames_append, hU0, userStepNames_announce,
        userStepNames_commitActs, userStepNames_storePhase,
        userStepNames_finishAct, userStepNames_afterPhase,
        userStepNames_deferredActions, List.append_nil, List.nil_append]
      exact hnames
    · have hm := storeStepStart_mem_storePhase opts sc
        { success := false, failedStepName := st.displayName,
          failedStepMessage := msg }
      simp only [List.mem_append, iff_true]
      tauto
  | false =>
    rw [if_neg (show ¬(false = true) by decide)]
    refine ⟨⟨pre, st, msg, rest, hsteps, hpre, ?_⟩, ?_⟩
    · simp only [userStepNames_append, hU0, userStepNames_announce,
        userStepNames_commitActs, userStepNames_finishAct,
        userStepNames_afterPhase, userStepNames_deferredActions,
        List.append_nil, List.nil_append]
      simpa [userStepNames] using hnames
    · simp [List.mem_append, hS0,
        storeStepStart_notMem_runUserSteps opts sc.steps initialPipelineResult,
        storeStepStart_notMem_commitActs opts.shouldCommit,
        storeStepStart_notMem_afterPhase sc,
        storeStepStart_notMem_deferredActions sc.boxCreated opts,
        userStepNames]

lemma executeFromSetup_split (opts : GlobalOptions) (sc : Scenario)
    (pre : List Action) :
    ∃ l, (executeFromSetup opts sc pre).trace =
        l ++ deferredActions sc.boxCreated opts ∧
      (Action.boxStop ∈ l → Action.boxStop ∈ pre) ∧
      (Action.boxClean ∈ l → Action.boxClean ∈ pre) := by
  cases hsetup : sc.setupEnvErr with
  | some e =>
    cases hdbg : opts.debug with
    | true =>
      refine ⟨pre ++ [Action.setupEnvironment, Action.softExitPanic e],
        ?_, ?_, ?_⟩
      · simp [executeFromSetup, hsetup, hdbg, List.append_assoc]
      · intro h; simpa using h
      · intro h; simpa using h
    | false =>
      refine ⟨pre ++ [Action.setupEnvironment, Action.softExitLog e],
        ?_, ?_, ?_⟩
      · simp [executeFromSetup, hsetup, hdbg, List.append_assoc]
      · intro h; simpa using h
      · intro h; simpa using h
  | none =>
    by_cases hcond :
        (opts.shouldPush ||
          ((runUserSteps opts sc.steps initialPipelineResult).2.success &&
            opts.shouldArtifacts)) = true
    · refine ⟨pre ++ [Action.setupEnvironment, Action.buildStepsAdded]
        ++ (runUserSteps opts sc.steps initialPipelineResult).1
        ++ (if opts.shouldCommit then [Action.commit] else [])
        ++ (storePhase opts sc
              (runUserSteps opts sc.steps initialPipelineResult).2).1
        ++ [Action.finish (storePhase opts sc
              (runUserSteps opts sc.steps initialPipelineResult).2).2.success]
        ++ (afterPhase sc (storePhase opts sc
              (runUserSteps opts sc.steps initialPipelineResult).2).2).1,
        ?_, ?_, ?_⟩
      · simp only [executeFromSetup, hsetup, hcond, if_pos, List.append_assoc]
      · intro h
        simp only [List.mem_append] at h
        simpa [boxStop_notMem_runUserSteps opts sc.steps initialPipelineResult,
          boxStop_notMem_commitActs opts.shouldCommit,
          boxStop_notMem_storePhase, boxStop_notMem_afterPhase] using h
      · intro h
        simp only [List.mem_append] at h
        simpa [boxClean_notMem_runUserSteps opts sc.steps initialPipelineResult,
          boxClean_notMem_commitActs opts.shouldCommit,
          boxClean_notMem_storePhase, boxClean_notMem_afterPhase] using h
    · refine ⟨pre ++ [Action.setupEnvironment, Action.buildStepsAdded]
        ++ (runUserSteps opts sc.steps initialPipelineResult).1
        ++ (if opts.shouldCommit then [Action.commit] else [])
        ++ [Action.finish
              (runUserSteps opts sc.steps initialPipelineResult).2.success]
        ++ (afterPhase sc
              (runUserSteps opts sc.steps initialPipelineResult).2).1,
        ?_, ?_, ?_⟩
      · simp [executeFromSetup, hsetup, hcond, List.append_assoc]
      · intro h
        simp only [List.mem_append] at h
        simpa [boxStop_notMem_runUserSteps opts sc.steps initialPipelineResult,
          boxStop_notMem_commitActs opts.shouldCommit,
          boxStop_notMem_afterPhase] using h
      · intro h
        simp only [List.mem_append] at h
        simpa [boxClean_notMem_runUserSteps opts sc.steps initialPipelineResult,
          boxClean_notMem_commitActs opts.shouldCommit,
          boxClean_notMem_afterPhase] using h

/-- C5: in every run that creates the box, when ShouldRemove is set the
trace ends with Box.Stop followed immediately by Box.Clean (and the
deferred build finisher), and neither call occurs anywhere earlier — so
Box.Clean runs exactly once, after Box.Stop, on every exit path. -/
theorem C5_box_clean_once_after_stop
    (opts : GlobalOptions) (sc : Scenario)
    (hreach : reachesSetup opts sc)
    (hbox : sc.boxCreated = true)
    (hrem : opts.shouldRemove = true) :
    ∃ l, (executePipeline opts sc).trace =
        l ++ [Action.boxStop, Action.boxClean, Action.finish false] ∧
      Action.boxStop ∉ l ∧ Action.boxClean ∉ l := by
  obtain ⟨pre0, hEq, hU0, hA0, hS0, hBs0, hBc0⟩ := executePipeline_reach hreach
  obtain ⟨l, hsplit, hstop, hclean⟩ := executeFromSetup_split opts sc pre0
  refine ⟨l, ?_, fun h => hBs0 (hstop h), fun h => hBc0 (hclean h)⟩
  rw [hEq, hsplit]
  simp [deferredActions, hbox, hrem]

lemma afterStepNames_restartSession :
    afterStepNames [Action.restart, Action.getSession] = [] := rfl

lemma afterStepNames_single (n : String) :
    afterStepNames [Action.runAfterStep n] = [n] := rfl

lemma afterStepNames_map (l : List (UserStep × Option String)) :
    afterStepNames (l.map fun q => Action.runAfterStep q.1.name) =
      l.map fun q => q.1.name := by
  induction l with
  | nil => rfl
  | cons q rest ih =>
    simp only [List.map_cons, afterStepNames, List.filterMap_cons] at ih ⊢
    rw [ih]

/-- C9: in every run that reaches the after-step loop and in which some
after step fails, the loop breaks at the first failing after step (the
after steps run are exactly those up to and including it), the
PipelineResult passed to BuildFinished is the final one (after steps
never modify it), and the returned value reflects that result: an error
carrying the failed step name exactly when it is unsuccessful. -/
theorem C9_after_step_failure_breaks_loop_preserves_result
    (opts : GlobalOptions) (sc : Scenario)
    (hreach : reachesSetup opts sc)
    (hsetup : sc.setupEnvErr = none)
    (hre : sc.restartErr = none) (hgs : sc.getSessionErr = none)
    (hpe : sc.pipelineExportErr = none) (hxe : sc.prExportErr = none)
    (hafail : sc.afterSteps.any (fun q => q.2.isSome) = true) :
    ∃ prF, (executePipeline opts sc).pr = some prF ∧
      Action.finish prF.success ∈ (executePipeline opts sc).trace ∧
      (∃ pre st msg rest,
          sc.afterSteps = pre ++ (st, some msg) :: rest ∧
          (∀ q ∈ pre, q.2 = none) ∧
          afterStepNames (executePipeline opts sc).trace =
            pre.map (fun q => q.1.name) ++ [st.name]) ∧
      (executePipeline opts sc).outcome =
        Outcome.ret (if prF.success then none
          else some ("Step failed: " ++ prF.failedStepName)) := by
  obtain ⟨pre0, hEq, hU0, hA0, hS0, hBs0, hBc0⟩ := executePipeline_reach hreach
  have hne : sc.afterSteps.isEmpty = false := by
    cases h : sc.afterSteps with
    | nil => rw [h] at hafail; simp at hafail
    | cons a l => rfl
  obtain ⟨preA, stA, msgA, restA, hAEq, hApre, hAacts⟩ :=
    runAfterSteps_break hafail
  rw [hEq]
  simp only [executeFromSetup, hsetup]
  set s := runUserSteps opts sc.steps initialPipelineResult with hs
  set P := (if opts.shouldPush || (s.2.success && opts.shouldArtifacts) then
      storePhase opts sc s.2 else ([], s.2)) with hP
  have hPA : afterStepNames P.1 = [] := by
    rw [hP]; split
    · exact afterStepNames_storePhase opts sc s.2
    · rfl
  have hAfterActs : (afterPhase sc P.2).1 =
      [Action.restart, Action.getSession] ++ runAfterSteps sc.afterSteps := by
    simp [afterPhase, hne, hre, hgs, hpe, hxe]
  have hAfterOut : (afterPhase sc P.2).2 =
      (if P.2.success then Outcome.ret none
       else Outcome.ret (some ("Step failed: " ++ P.2.failedStepName))) := by
    simp [afterPhase, hne, hre, hgs, hpe, hxe]
  refine ⟨P.2, rfl, ?_, ⟨preA, stA, msgA, restA, hAEq, hApre, ?_⟩, ?_⟩
  · simp [List.mem_append]
  · simp only [afterStepNames_append, hA0, afterStepNames_announce,
      afterStepNames_runUserSteps, afterStepNames_commitActs, hPA,
      afterStepNames_finishAct, afterStepNames_deferredActions,
      hAfterActs, afterStepNames_restartSession, hAacts,
      afterStepNames_map, afterStepNames_single,
      List.nil_append, List.append_nil]
    rw [hs]
    simp [afterStepNames_runUserSteps]
  · rw [hAfterOut]
    cases h2 : P.2.success <;> simp

/-- Options with only ShouldPush set (and debug off). -/
def pushOptions : GlobalOptions :=
  { debug := false, shouldCommit := false, shouldPush := true,
    shouldArtifacts := false, shouldRemove := false }

/-- Options with only ShouldRemove set (and debug off). -/
def removeOptions : GlobalOptions :=
  { debug := false, shouldCommit := false, shouldPush := false,
    shouldArtifacts := false, shouldRemove := true }

/-- Options with only Debug set. -/
def debugOptions : GlobalOptions :=
  { debug := true, shouldCommit := false, shouldPush := false,
    shouldArtifacts := false, shouldRemove := false }

/-- A scenario whose only user step A fails with message "oops". -/
def failingStepScenario : Scenario :=
  { allOkScenario with steps := [(stepA, some "oops")] }

/-- A scenario in which EnsureCode fails and everything else succeeds. -/
def ensureCodeFailScenario : Scenario :=
  { allOkScenario with ensureCodeErr := some "no code" }

/-- A scenario with no user steps and one failing after step Z. -/
def failingAfterStepScenario : Scenario :=
  { allOkScenario with afterSteps := [(stepZ, some "bad")] }

/-- C1: evaluation of the code at the failing input.  User step A fails,
so PipelineResult.success is false before the store phase; ShouldPush is
set and the push succeeds, and the store phase resets the result to
success — the final PipelineResult has success true and the run returns
no error, so the store phase upgrades success after a user-step
failure. -/
theorem C1_store_phase_upgrades_success_after_user_failure :
    failingStepScenario.steps = [(stepA, some "oops")] ∧
    (executePipeline pushOptions failingStepScenario).pr =
      some { success := true, failedStepName := "", failedStepMessage := "" } ∧
    (executePipeline pushOptions failingStepScenario).outcome =
      Outcome.ret none := by
  decide

/-- C2: evaluation of the code at the failing input.  User step A fails
and the pipeline has no after steps: the final PipelineResult is a
failure, yet executePipeline returns no error (the early return for an
empty after-step list is unconditional), so the caller exits 0. -/
theorem C2_failed_run_returns_nil_when_no_after_steps :
    (executePipeline defaultOptions failingStepScenario).pr =
      some { success := false, failedStepName := "A-display",
             failedStepMessage := "oops" } ∧
    (executePipeline defaultOptions failingStepScenario).outcome =
      Outcome.ret none := by
  decide

/-- C3: evaluation of the code at the failing input.  EnsureCode fails in
a non-debug run: SoftExit is invoked (it logs and returns an error), but
the return value is discarded without a return statement, so
SetupEnvironment runs, the steps are announced, and the run completes
normally. -/
theorem C3_ensureCode_failure_still_runs_later_phases :
    (executePipeline defaultOptions ensureCodeFailScenario).trace =
      [Action.softExitLog "no code", Action.setupEnvironment,
       Action.buildStepsAdded, Action.finish true, Action.boxStop,
       Action.finish false] ∧
    (executePipeline defaultOptions ensureCodeFailScenario).outcome =
      Outcome.ret none := by
  decide

/-- C4 witness at a concrete run: step A fails under options with
ShouldPush unset, so the store phase is not entered. -/
theorem C4_witness :
    (∃ pre st msg rest,
        failingStepScenario.steps = pre ++ (st, some msg) :: rest ∧
        (∀ q ∈ pre, q.2 = none) ∧
        userStepNames
            (executePipeline defaultOptions failingStepScenario).trace =
          pre.map (fun q => q.1.name) ++ [st.name]) ∧
    (Action.storeStepStart ∈
        (executePipeline defaultOptions failingStepScenario).trace ↔
      defaultOptions.shouldPush = true) :=
  C4_user_step_failure_breaks_loop_and_store_iff_push defaultOptions
    failingStepScenario (Or.inl rfl) rfl (by decide)

/-- C5 witness at a concrete run with ShouldRemove set. -/
theorem C5_witness :
    ∃ l, (executePipeline removeOptions allOkScenario).trace =
        l ++ [Action.boxStop, Action.boxClean, Action.finish false] ∧
      Action.boxStop ∉ l ∧ Action.boxClean ∉ l :=
  C5_box_clean_once_after_stop removeOptions allOkScenario
    (Or.inl rfl) rfl rfl

/-- C6: SoftExit.Exit panics in debug mode; otherwise it logs the
arguments at error level and returns the non-empty normalized error. -/
theorem C6_softExit_panics_in_debug_else_logs_and_errors
    (s : SoftExit) (v : String) :
    (s.options.debug = true → s.Exit v = SoftExitResult.panicked v) ∧
    (s.options.debug = false →
      s.Exit v = SoftExitResult.returned v "Exiting." ∧
        ("Exiting." : String) ≠ "") := by
  constructor
  · intro h
    simp [SoftExit.Exit, h]
  · intro h
    exact ⟨by simp [SoftExit.Exit, h], by decide⟩

/-- C6 witness: the two modes at a concrete message. -/
theorem C6_witness :
    (SoftExit.mk debugOptions).Exit "boom" = SoftExitResult.panicked "boom" ∧
    (SoftExit.mk defaultOptions).Exit "boom" =
      SoftExitResult.returned "boom" "Exiting." :=
  ⟨(C6_softExit_panics_in_debug_else_logs_and_errors
      (SoftExit.mk debugOptions) "boom").1 rfl,
   ((C6_softExit_panics_in_debug_else_logs_and_errors
      (SoftExit.mk defaultOptions) "boom").2 rfl).1⟩

/-- C7: BuildStepFinished without a matching start timestamp still sends
the payload, with duration zero and the map unchanged; with a matching
start it sends the elapsed time, removes the stored timestamp for that
SafeID and leaves every other key unchanged. -/
theorem C7_step_finished_duration_and_removal
    (h : MetricsEventHandler) (safeID : String) (now : Int) :
    (h.startStep safeID = none →
      h.BuildStepFinished safeID now = (h, 0)) ∧
    (∀ t, h.startStep safeID = some t →
      (h.BuildStepFinished safeID now).2 = now - t ∧
      (h.BuildStepFinished safeID now).1.startStep safeID = none ∧
      (∀ k, k ≠ safeID →
        (h.BuildStepFinished safeID now).1.startStep k = h.startStep k)) := by
  constructor
  · intro h0
    simp [MetricsEventHandler.BuildStepFinished, h0]
  · intro t ht
    refine ⟨?_, ?_, ?_⟩
    · simp [MetricsEventHandler.BuildStepFinished, ht]
    · simp [MetricsEventHandler.BuildStepFinished, ht]
    · intro k hk
      simp [MetricsEventHandler.BuildStepFinished, ht, hk]

/-- A concrete handler holding one start timestamp, for step SafeID s1. -/
def sampleHandler : MetricsEventHandler :=
  { keenWriteKey := "wk", keenProjectID := "pid",
    startStep := fun k => if k = "s1" then some 5 else none }

/-- C7 witness: both branches at concrete inputs. -/
theorem C7_witness :
    sampleHandler.BuildStepFinished "s0" 12 = (sampleHandler, 0) ∧
    (sampleHandler.BuildStepFinished "s1" 12).2 = 12 - 5 ∧
    (sampleHandler.BuildStepFinished "s1" 12).1.startStep "s1" = none :=
  ⟨(C7_step_finished_duration_and_removal sampleHandler "s0" 12).1
      (by simp [sampleHandler]),
   ((C7_step_finished_duration_and_removal sampleHandler "s1" 12).2 5
      (by simp [sampleHandler])).1,
   ((C7_step_finished_duration_and_removal sampleHandler "s1" 12).2 5
      (by simp [sampleHandler])).2.1⟩

/-- Options for the metrics handler that carry neither a BuildID nor a
DeployID. -/
def noIDOptions : PipelineOptions :=
  { keenProjectWriteKey := "wk", keenProjectID := "pid",
    buildID := "", deployID := "" }

/-- C8 counterexample: asked to send for neither build nor deploy, the
send path raises a logged panic.  The handler consults no debug flag, so
outside debug mode the call still panics instead of being logged and
skipped as the claim states. -/
theorem C8_counterexample :
    sendPayload noIDOptions =
      PanicOr.panicked
        "Metrics is only able to send metrics for builds or deploys" := rfl

/-- C8 amended: whenever the options carry neither a BuildID nor a
DeployID, sendPayload logs and panics, in debug and non-debug mode alike;
the offending call is never skipped. -/
theorem C8_amended_sendPayload_always_panics (opts : PipelineOptions)
    (hb : opts.buildID = "") (hd : opts.deployID = "") :
    sendPayload opts =
      PanicOr.panicked
        "Metrics is only able to send metrics for builds or deploys" := by
  simp [sendPayload, getCollection, getPipelineName, hb, hd]

/-- C8 witness for the amended statement. -/
theorem C8_witness :
    noIDOptions.buildID = "" ∧ noIDOptions.deployID = "" ∧
    sendPayload noIDOptions =
      PanicOr.panicked
        "Metrics is only able to send metrics for builds or deploys" :=
  ⟨rfl, rfl, C8_amended_sendPayload_always_panics noIDOptions rfl rfl⟩

/-- C9 witness at a concrete run: no user steps, one failing after step. -/
theorem C9_witness :
    ∃ prF,
      (executePipeline defaultOptions failingAfterStepScenario).pr =
        some prF ∧
      Action.finish prF.success ∈
        (executePipeline defaultOptions failingAfterStepScenario).trace ∧
      (∃ pre st msg rest,
          failingAfterStepScenario.afterSteps =
            pre ++ (st, some msg) :: rest ∧
          (∀ q ∈ pre, q.2 = none) ∧
          afterStepNames
              (executePipeline defaultOptions failingAfterStepScenario).trace =
            pre.map (fun q => q.1.name) ++ [st.name]) ∧
      (executePipeline defaultOptions failingAfterStepScenario).outcome =
        Outcome.ret (if prF.success then none
          else some ("Step failed: " ++ prF.failedStepName)) :=
  C9_after_step_failure_breaks_loop_preserves_result defaultOptions
    failingAfterStepScenario (Or.inl rfl) rfl rfl rfl rfl rfl (by decide)

/-- C10: NewMetricsHandler returns an error exactly when the keen write
key or the keen project id is empty; any handler it returns has an empty
start-step map. -/
theorem C10_newMetricsHandler_validation (opts : PipelineOptions) :
    ((∃ e, NewMetricsHandler opts = Except.error e) ↔
      (opts.keenProjectWriteKey = "" ∨ opts.keenProjectID = "")) ∧
    (∀ h, NewMetricsHandler opts = Except.ok h →
      ∀ k, h.startStep k = none) := by
  constructor
  · constructor
    · rintro ⟨e, he⟩
      by_cases h1 : opts.keenProjectWriteKey = ""
      · exact Or.inl h1
      by_cases h2 : opts.keenProjectID = ""
      · exact Or.inr h2
      simp [NewMetricsHandler, h1, h2] at he
    · intro h
      by_cases h1 : opts.keenProjectWriteKey = ""
      · exact ⟨"No KeenProjectWriteKey specified",
          by simp [NewMetricsHandler, h1]⟩
      rcases h with h1a | h2
      · exact absurd h1a h1
      · exact ⟨"No KeenProjectID specified",
          by simp [NewMetricsHandler, h1, h2]⟩
  · intro h hok k
    by_cases h1 : opts.keenProjectWriteKey = ""
    · simp [NewMetricsHandler, h1] at hok
    by_cases h2 : opts.keenProjectID = ""
    · simp [NewMetricsHandler, h1, h2] at hok
    simp [NewMetricsHandler, h1, h2] at hok
    rw [← hok]

/-- Valid metrics options. -/
def validMetricsOptions : PipelineOptions :=
  { keenProjectWriteKey := "wk", keenProjectID := "pid",
    buildID := "b1", deployID := "" }

/-- Metrics options missing the keen write key. -/
def noWriteKeyOptions : PipelineOptions :=
  { validMetricsOptions with keenProjectWriteKey := "" }

/-- The handler NewMetricsHandler builds from validMetricsOptions. -/
def freshHandler : MetricsEventHandler :=
  { keenWriteKey := "wk", keenProjectID := "pid",
    startStep := fun _ => none }

/-- C10 witness: a valid option set yields a handler whose start-step map
is empty, and an option set without a write key yields an error. -/
theorem C10_witness :
    (∀ k, freshHandler.startStep k = none) ∧
    (∃ e, NewMetricsHandler noWriteKeyOptions = Except.error e) :=
  ⟨(C10_newMetricsHandler_validation validMetricsOptions).2 freshHandler rfl,
   (C10_newMetricsHandler_validation noWriteKeyOptions).1.mpr (Or.inl rfl)⟩

end Wercker
